import Mathlib

/-!
Verification development for the llm-svc repository: a shallow embedding of
the model pool (app/services/model_pool.py, model_context.py), the tool-call
extractor (app/services/generators/tool_call_processor.py), the stream and
non-stream response assemblers (app/services/generators/stream_generator.py,
non_stream_generator.py) and the session/reset bookkeeping of the two service
layers (app/services/llama_handler.py, models_service.py), together with
theorems settling the frozen claims C1..C10.
-/

deriving instance DecidableEq for Except

namespace LlmSvc

/-! ## JSON values

Model of the Python JSON values manipulated by `json.loads` / `json.dumps`.
Numbers are restricted to integers (the repository's tool-call payloads and
every claim use integer arguments only; floats are out of scope of the
embedding). Object fields keep insertion order, as Python dicts do. -/

inductive Json where
  | null : Json
  | bool (b : Bool) : Json
  | num (n : Int) : Json
  | str (s : String) : Json
  | arr (elems : List Json) : Json
  | obj (fields : List (String × Json)) : Json
deriving Repr

/-- Python `dict.get(k)` on a parsed JSON object (`none` when `j` is not an
object or the key is absent). -/
def Json.getField (j : Json) (k : String) : Option Json :=
  match j with
  | .obj fs => (fs.find? (fun p => p.1 == k)).map (fun p => p.2)
  | _ => none

/-- Insertion into a Python dict: a duplicate key overwrites the value in
place (keeping the original position), a new key is appended. -/
def objInsert (fs : List (String × Json)) (k : String) (v : Json) : List (String × Json) :=
  if fs.any (fun p => p.1 == k) then fs.map (fun p => if p.1 == k then (k, v) else p)
  else fs ++ [(k, v)]

/-! ## Python-style string primitives

Python `str` values are modelled as `List Char` (`in` is substring
containment, slicing is `take`/`drop`, `len` is `length`).  `pyWs` is the
ASCII part of Python's whitespace class, enough for every text the claims
touch. -/

def pyWs (c : Char) : Bool :=
  c = ' ' || c = '\t' || c = '\n' || c = '\r' || c = '\x0b' || c = '\x0c'

/-- Python `str.strip()` restricted to ASCII whitespace. -/
def pyStrip (cs : List Char) : List Char :=
  ((cs.dropWhile pyWs).reverse.dropWhile pyWs).reverse

/-- Python's substring test `needle in hay`. -/
def hasSub (needle : List Char) : List Char → Bool
  | [] => needle.isEmpty
  | c :: t => needle.isPrefixOf (c :: t) || hasSub needle t

/-- Split `hay` at the first occurrence of `marker`: returns the part before
the marker and the part after it. `none` when the marker does not occur. -/
def splitOnMarker (marker : List Char) : List Char → Option (List Char × List Char)
  | [] => if marker.isEmpty then some ([], []) else none
  | c :: t =>
    if marker.isPrefixOf (c :: t) then some ([], (c :: t).drop marker.length)
    else
      match splitOnMarker marker t with
      | some (pre, rest) => some (c :: pre, rest)
      | none => none

/-! ## `json.loads` (subset)

Recursive-descent parser for the JSON subset manipulated by the repository:
objects, arrays, strings (with the standard escapes, surrogate pairs
excluded), integers, booleans and null.  Floats are rejected.  Recursion is
fuelled; the wrapper supplies `length + 1` fuel, which is sufficient since
every recursive call consumes at least one character first. -/

def jsonWsChar (c : Char) : Bool := c = ' ' || c = '\t' || c = '\n' || c = '\r'

def skipWs (cs : List Char) : List Char := cs.dropWhile jsonWsChar

def hexVal (c : Char) : Option Nat :=
  if '0' ≤ c ∧ c ≤ '9' then some (c.toNat - '0'.toNat)
  else if 'a' ≤ c ∧ c ≤ 'f' then some (c.toNat - 'a'.toNat + 10)
  else if 'A' ≤ c ∧ c ≤ 'F' then some (c.toNat - 'A'.toNat + 10)
  else none

def digVal (c : Char) : Option Nat :=
  if '0' ≤ c ∧ c ≤ '9' then some (c.toNat - '0'.toNat) else none

def takeDigits : List Char → (List Nat × List Char)
  | [] => ([], [])
  | c :: t =>
    match digVal c with
    | some d => let (ds, r) := takeDigits t; (d :: ds, r)
    | none => ([], c :: t)

def digitsToNat (ds : List Nat) : Nat := ds.foldl (fun a d => a * 10 + d) 0

/-- JSON integer token: optional minus, digits without a leading zero; a
following `.`/`e`/`E` (a float) falls outside the embedded subset. -/
def parseIntTok (cs : List Char) : Option (Int × List Char) :=
  let p : Bool × List Char :=
    match cs with
    | '-' :: t => (true, t)
    | _ => (false, cs)
  match takeDigits p.2 with
  | ([], _) => none
  | (ds, rest) =>
    if 1 < ds.length ∧ ds.headD 0 = 0 then none
    else if rest.headD ' ' = '.' ∨ rest.headD ' ' = 'e' ∨ rest.headD ' ' = 'E' then none
    else
      let n : Int := Int.ofNat (digitsToNat ds)
      some (if p.1 then -n else n, rest)

/-- Body of a JSON string literal (after the opening quote): returns the
decoded characters and the remainder after the closing quote. -/
def parseStringBody : Nat → List Char → Option (List Char × List Char)
  | 0, _ => none
  | _, [] => none
  | fuel + 1, c :: rest =>
    if c = '"' then some ([], rest)
    else if c = '\\' then
      match rest with
      | [] => none
      | e :: rest2 =>
        let cont : Char → List Char → Option (List Char × List Char) := fun ch rem =>
          match parseStringBody fuel rem with
          | some (s, r) => some (ch :: s, r)
          | none => none
        if e = '"' then cont '"' rest2
        else if e = '\\' then cont '\\' rest2
        else if e = '/' then cont '/' rest2
        else if e = 'b' then cont '\x08' rest2
        else if e = 'f' then cont '\x0c' rest2
        else if e = 'n' then cont '\n' rest2
        else if e = 'r' then cont '\r' rest2
        else if e = 't' then cont '\t' rest2
        else if e = 'u' then
          match rest2 with
          | h1 :: h2 :: h3 :: h4 :: rest3 =>
            match hexVal h1, hexVal h2, hexVal h3, hexVal h4 with
            | some a, some b, some c', some d =>
              let code := ((a * 16 + b) * 16 + c') * 16 + d
              if code < 0xd800 ∨ 0xdfff < code then cont (Char.ofNat code) rest3
              else none
            | _, _, _, _ => none
          | _ => none
        else none
    else if c.toNat < 0x20 then none
    else
      match parseStringBody fuel rest with
      | some (s, r) => some (c :: s, r)
      | none => none

mutual

def parseValue : Nat → List Char → Option (Json × List Char)
  | 0, _ => none
  | fuel + 1, cs =>
    match skipWs cs with
    | [] => none
    | c :: t =>
      if c = '"' then
        match parseStringBody (t.length + 1) t with
        | some (s, r) => some (.str (String.mk s), r)
        | none => none
      else if c = '\x7b' then
        match skipWs t with
        | '\x7d' :: r => some (.obj [], r)
        | t2 => parseObjLoop fuel [] t2
      else if c = '[' then
        match skipWs t with
        | ']' :: r => some (.arr [], r)
        | t2 => parseArrLoop fuel [] t2
      else if c = 't' then
        if ['r', 'u', 'e'].isPrefixOf t then some (.bool true, t.drop 3) else none
      else if c = 'f' then
        if ['a', 'l', 's', 'e'].isPrefixOf t then some (.bool false, t.drop 4) else none
      else if c = 'n' then
        if ['u', 'l', 'l'].isPrefixOf t then some (.null, t.drop 3) else none
      else
        match parseIntTok (c :: t) with
        | some (n, r) => some (.num n, r)
        | none => none

def parseObjLoop : Nat → List (String × Json) → List Char → Option (Json × List Char)
  | 0, _, _ => none
  | fuel + 1, acc, cs =>
    match skipWs cs with
    | '"' :: t =>
      match parseStringBody (t.length + 1) t with
      | none => none
      | some (k, r1) =>
        match skipWs r1 with
        | ':' :: r2 =>
          match parseValue fuel r2 with
          | none => none
          | some (v, r3) =>
            match skipWs r3 with
            | ',' :: r4 => parseObjLoop fuel (objInsert acc (String.mk k) v) r4
            | '\x7d' :: r4 => some (.obj (objInsert acc (String.mk k) v), r4)
            | _ => none
        | _ => none
    | _ => none

def parseArrLoop : Nat → List Json → List Char → Option (Json × List Char)
  | 0, _, _ => none
  | fuel + 1, acc, cs =>
    match parseValue fuel cs with
    | none => none
    | some (v, r) =>
      match skipWs r with
      | ',' :: r2 => parseArrLoop fuel (acc ++ [v]) r2
      | ']' :: r2 => some (.arr (acc ++ [v]), r2)
      | _ => none

end

/-- Python `json.loads`: parse a complete document, allowing only trailing
whitespace. -/
def jsonLoads (s : String) : Option Json :=
  match parseValue (s.data.length + 1) s.data with
  | some (v, rest) => if (skipWs rest).isEmpty then some v else none
  | none => none

/-! ## `json.dumps`

Default Python formatting: separators `", "` and `": "`; `ensure_ascii`
escapes every character above `0x7e` as `\uXXXX` (surrogate pairs above the
BMP). -/

def hexDigitChar (n : Nat) : Char :=
  if n < 10 then Char.ofNat ('0'.toNat + n) else Char.ofNat ('a'.toNat + n - 10)

def hex4 (n : Nat) : List Char :=
  [hexDigitChar (n / 4096 % 16), hexDigitChar (n / 256 % 16),
   hexDigitChar (n / 16 % 16), hexDigitChar (n % 16)]

def escDumpChar (ensureAscii : Bool) (c : Char) : List Char :=
  if c = '"' then ['\\', '"']
  else if c = '\\' then ['\\', '\\']
  else if c = '\n' then ['\\', 'n']
  else if c = '\t' then ['\\', 't']
  else if c = '\r' then ['\\', 'r']
  else if c = '\x08' then ['\\', 'b']
  else if c = '\x0c' then ['\\', 'f']
  else if c.toNat < 0x20 then '\\' :: 'u' :: hex4 c.toNat
  else if ensureAscii ∧ 0x7e < c.toNat then
    if c.toNat < 0x10000 then '\\' :: 'u' :: hex4 c.toNat
    else
      ('\\' :: 'u' :: hex4 (0xd800 + (c.toNat - 0x10000) / 0x400)) ++
      ('\\' :: 'u' :: hex4 (0xdc00 + (c.toNat - 0x10000) % 0x400))
  else [c]

def dumpStringLit (ensureAscii : Bool) (s : String) : List Char :=
  '"' :: s.data.foldr (fun c acc => escDumpChar ensureAscii c ++ acc) ['"']

def joinComma : List (List Char) → List Char
  | [] => []
  | [x] => x
  | x :: y :: xs => x ++ ',' :: ' ' :: joinComma (y :: xs)

mutual

def Json.dump (ensureAscii : Bool) : Json → List Char
  | .null => "null".data
  | .bool b => (cond b "true" "false").data
  | .num n => (toString n).data
  | .str s => dumpStringLit ensureAscii s
  | .arr xs => '[' :: (joinComma (Json.dumpList ensureAscii xs) ++ [']'])
  | .obj fs => '\x7b' :: (joinComma (Json.dumpFields ensureAscii fs) ++ ['\x7d'])

def Json.dumpList (ensureAscii : Bool) : List Json → List (List Char)
  | [] => []
  | x :: xs => Json.dump ensureAscii x :: Json.dumpList ensureAscii xs

def Json.dumpFields (ensureAscii : Bool) : List (String × Json) → List (List Char)
  | [] => []
  | (k, v) :: fs =>
    (dumpStringLit ensureAscii k ++ ':' :: ' ' :: Json.dump ensureAscii v) ::
      Json.dumpFields ensureAscii fs

end

/-- Python `json.dumps` as a `String`-producing function. -/
def jsonDumps (ensureAscii : Bool) (j : Json) : String :=
  String.mk (Json.dump ensureAscii j)

/-! ## Tool-call tag scanning

Model of the regex `<tool_call>\s*(.*?)\s*</tool_call>` (DOTALL) as used by
`re.findall` and `re.sub` in `tool_call_processor.py` and
`stream_generator.py`: matches run left to right, each spans from an opening
marker to the *first* following closing marker (non-greedy `.*?`), the
captured group is the enclosed text with surrounding whitespace stripped
(`\s*` on both sides), and `re.sub` removes exactly the matched spans. -/

def openTagChars : List Char := "<tool_call>".data

def closeTagChars : List Char := "</tool_call>".data

/-- One pass of the scan: returns the text outside matched spans and the
stripped capture groups, in order.  Fuelled; each step consumes at least the
two markers, so `length + 1` fuel is always sufficient. -/
def scanTagsF : Nat → List Char → List Char × List (List Char)
  | 0, t => (t, [])
  | fuel + 1, t =>
    match splitOnMarker openTagChars t with
    | none => (t, [])
    | some (pre, afterOpen) =>
      match splitOnMarker closeTagChars afterOpen with
      | none => (t, [])
      | some (body, rest) =>
        let (cleanRest, bodies) := scanTagsF fuel rest
        (pre ++ cleanRest, pyStrip body :: bodies)

def scanTags (t : List Char) : List Char × List (List Char) :=
  scanTagsF (t.length + 1) t

/-! ## ToolCallProcessor.extract_tool_calls

`app/services/generators/tool_call_processor.py`.  For each regex match the
body is `json.loads`-parsed; `JSONDecodeError` is caught and the match
skipped.  Two failure modes escape the `except (JSONDecodeError, KeyError)`
clause and abort the whole extraction:
* the body parses to a non-dict value — `tool_data.get(...)` raises
  `AttributeError`;
* `tool_data.get("name", "")` is not a string — `FunctionCall(name=...)`
  raises a pydantic `ValidationError` (`name: str`, pydantic v2). -/

structure FunctionCall where
  name : String
  arguments : String
deriving DecidableEq, Repr

structure ToolCall where
  id : String
  type : String
  function : FunctionCall
deriving DecidableEq, Repr

inductive ExtractError where
  | attributeError
  | validationError
  /-- `TypeError` from `_create_error_response` instantiating the
  `typing.Union` alias `Message` (schemas.py line 108). -/
  | typeErrorUnion
deriving DecidableEq, Repr

/-- The loop body of `extract_tool_calls`: `i` is the running match index
(used in the synthesized id and counting skipped matches too), `now` the
`int(time.time())` value. -/
def extractLoop (now : Nat) : Nat → List (List Char) → Except ExtractError (List ToolCall)
  | _, [] => .ok []
  | i, body :: rest =>
    match jsonLoads (String.mk body) with
    | none => extractLoop now (i + 1) rest
    | some j =>
      match j with
      | .obj _ =>
        match (j.getField "name").getD (.str "") with
        | .str nm =>
          let c : ToolCall :=
            { id := "call_" ++ toString i ++ "_" ++ toString now
              type := "function"
              function :=
                { name := nm
                  arguments := jsonDumps true ((j.getField "arguments").getD (.obj [])) } }
          match extractLoop now (i + 1) rest with
          | .ok cs => .ok (c :: cs)
          | .error e => .error e
        | _ => .error .validationError
      | _ => .error .attributeError

/-- Model of `ToolCallProcessor.extract_tool_calls`: returns the tag-stripped text
(`re.sub` then `.strip()`) and the ordered extracted calls, or the escaping
exception. -/
def extractToolCalls (text : String) (now : Nat) :
    Except ExtractError (String × List ToolCall) :=
  let (cleanChars, bodies) := scanTags text.data
  match extractLoop now 0 bodies with
  | .ok calls => .ok (String.mk (pyStrip cleanChars), calls)
  | .error e => .error e

/-! ## StreamResponseGenerator

`app/services/generators/stream_generator.py` (the active, uncommented
class).  Emitted SSE chunks are modelled structurally; every chunk also
carries the constant response id, model name and timestamp on the wire,
which are not load-bearing for any claim and are omitted here.  The
`data: [DONE]` sentinel is `doneMarker`. -/

inductive StreamEvent where
  /-- Output of `_create_chunk`: a plain text delta chunk (`finish_reason: null`). -/
  | textChunk (content : List Char)
  /-- first chunk of `_stream_tool_calls`: role `assistant`, the call id,
  type `function`, the function name and the initial `arguments` string,
  `finish_reason: null`. -/
  | toolInitChunk (callId : String) (callType : String) (fnName : Json)
      (fnArguments : String)
  /-- argument chunk of `_stream_tool_calls`: one slice of the JSON-encoded
  arguments string, plus the chunk's `finish_reason`. -/
  | toolArgsChunk (slice : List Char) (finish : Option String)
  /-- the literal `data: [DONE]\n\n` event. -/
  | doneMarker
deriving Repr

/-- A tool call as assembled by `_parse_tool_calls_from_buffer`: plain dict,
`name` is whatever JSON value the body carried, `arguments` is the
`json.dumps(..., ensure_ascii=False)` encoding. -/
structure StreamToolCall where
  id : String
  type : String
  name : Json
  argumentsStr : List Char
deriving Repr

/-- Model of `_parse_tool_calls_from_buffer`: regex-find all tagged bodies in the
buffer; a body is kept only when it parses and has both a `name` and an
`arguments` key (`json.loads(match)['...']`; any exception — decode error,
`KeyError`, `TypeError` on non-dicts — is caught by `except Exception` and
the match skipped). -/
def parseToolCallsFromBuffer (now : Nat) (buffer : List Char) : List StreamToolCall :=
  let (_, bodies) := scanTags buffer
  bodies.filterMap fun body =>
    match jsonLoads (String.mk body) with
    | none => none
    | some j =>
      match j.getField "name", j.getField "arguments" with
      | some nm, some args =>
        some { id := "call_" ++ toString now
               type := "function"
               name := nm
               argumentsStr := (jsonDumps false args).data }
      | _, _ => none

/-- Model of `_stream_tool_calls`: the three-phase emulation.  `mid = len(args) // 2`;
the first argument slice is emitted only when `mid > 0`; the final slice
carries `finish_reason: "tool_calls"`. -/
def streamToolCalls (tc : StreamToolCall) : List StreamEvent :=
  let args := tc.argumentsStr
  let mid := args.length / 2
  StreamEvent.toolInitChunk tc.id "function" tc.name "" ::
    ((if 0 < mid then [StreamEvent.toolArgsChunk (args.take mid) none] else []) ++
      [StreamEvent.toolArgsChunk (args.drop mid) (some "tool_calls")])

/-- Per-stream parser state: the accumulation buffer and the
`tool_call_detected` flag. -/
structure StreamState where
  buffer : List Char
  toolCallDetected : Bool
deriving DecidableEq, Repr

def initStreamState : StreamState := { buffer := [], toolCallDetected := false }

/-- The body of `generate`'s `async for` loop for one delta `content`:
empty content is skipped; with no detection and no opening marker the text
is re-emitted; otherwise the content is buffered and, once a closing marker
is in the buffer, the buffer is parsed — the first parsed call (if any) is
streamed — and buffer and flag are cleared. -/
def stepDelta (now : Nat) (st : StreamState) (content : List Char) :
    StreamState × List StreamEvent :=
  if content.isEmpty then (st, [])
  else if !st.toolCallDetected && !hasSub openTagChars content then
    (st, [StreamEvent.textChunk content])
  else
    let buf := st.buffer ++ content
    if hasSub closeTagChars buf then
      let evts :=
        match parseToolCallsFromBuffer now buf with
        | [] => []
        | c :: _ => streamToolCalls c
      (initStreamState, evts)
    else
      ({ buffer := buf, toolCallDetected := true }, [])

/-- One backend chunk: `none` models a dict without a `'choices'` key
(the code then reads the default `[{}]`); `some choices` models
`'choices': [...]` where each element is its delta's `'content'` value
(`none` = absent/null, read as `''`). -/
def ChunkInput : Type := Option (List (Option (List Char)))

/-- Models `chunk.get('choices', [{}])[0].get('delta', {}).get('content', '')`:
an explicit empty `choices` list makes the `[0]` subscript raise
`IndexError`. -/
def chunkContent : ChunkInput → Except String (List Char)
  | none => .ok []
  | some [] => .error "list index out of range"
  | some (c :: _) => .ok (c.getD [])

/-- Run the `async for` loop over the chunks: accumulated events, final
state, and the first in-loop exception if one occurred. -/
def generateLoop (now : Nat) (st : StreamState) :
    List ChunkInput → List StreamEvent × StreamState × Option String
  | [] => ([], st, none)
  | ch :: rest =>
    match chunkContent ch with
    | .error e => ([], st, some e)
    | .ok content =>
      let (st', evts) := stepDelta now st content
      let (evtsRest, stFin, err) := generateLoop now st' rest
      (evts ++ evtsRest, stFin, err)

/-- Result of running the stream generator to the end: either the generator
finished and yielded `events`, or it raised exception `exc` after yielding
`events`. -/
inductive GenOutcome where
  | completed (events : List StreamEvent)
  | raised (events : List StreamEvent) (exc : String)
deriving Repr

/-- Exception text for the error path of `generate`: the `except` handler
calls `self._create_error_chunk(...)`, but the active
`StreamResponseGenerator` class does not define that method (only the
commented-out earlier version of the class does), so the handler itself
raises `AttributeError` and the generator yields nothing further. -/
def missingErrorChunkAttr : String :=
  "AttributeError: _create_error_chunk is not defined on StreamResponseGenerator"

/-- Model of `StreamResponseGenerator.generate` over a finite backend stream.
`backendErr = some msg` models the backend raising after producing
`chunks`.  On the normal path the loop runs to the end, the final
`if buffer and not tool_call_detected` flush is appended when its guard
holds, then `data: [DONE]`.  On any exception (backend error or an
`IndexError` on a malformed chunk) the handler crashes on the missing
`_create_error_chunk` attribute. -/
def streamGenerate (now : Nat) (chunks : List ChunkInput)
    (backendErr : Option String) : GenOutcome :=
  let (evts, stFin, loopErr) := generateLoop now initStreamState chunks
  match loopErr with
  | some _ => .raised evts missingErrorChunkAttr
  | none =>
    match backendErr with
    | some _ => .raised evts missingErrorChunkAttr
    | none =>
      .completed
        (evts ++
          (if !stFin.buffer.isEmpty && !stFin.toolCallDetected then
            [StreamEvent.textChunk stFin.buffer]
          else []) ++
          [StreamEvent.doneMarker])

/-! ## NonStreamResponseGenerator

`app/services/generators/non_stream_generator.py`.  Request tool
definitions only matter through `len(tools)`, so a tool definition is
modelled by its function name. -/

structure ToolDef where
  name : String
deriving DecidableEq, Repr

/-- Model of `BaseResponseGenerator._should_use_tools` /
`ToolCallProcessor.should_use_tools`: a tools list that is present and
non-empty. -/
def shouldUseTools (tools : Option (List ToolDef)) : Bool :=
  match tools with
  | none => false
  | some ts => !ts.isEmpty

/-- The first backend choice: `finish_reason` and the message's `content`
and `tool_calls` (each `none` when absent). -/
structure RawChoice where
  finishReason : Option String
  content : Option String
  toolCalls : Option (List ToolCall)
deriving DecidableEq, Repr

/-- Raw backend completion dict (`none` fields are absent keys, read with
`.get` defaults). -/
structure RawResponse where
  id : Option String
  created : Option Nat
  choices : List RawChoice
  promptTokens : Option Nat
  completionTokens : Option Nat
  totalTokens : Option Nat
deriving DecidableEq, Repr

structure AssistantMessage where
  content : Option String
  toolCalls : Option (List ToolCall)
deriving DecidableEq, Repr

structure UsageInfo where
  promptTokens : Nat
  completionTokens : Nat
  totalTokens : Nat
deriving DecidableEq, Repr

structure ChatChoice where
  index : Nat
  message : AssistantMessage
  finishReason : Option String
deriving DecidableEq, Repr

structure ChatCompletionResponse where
  id : String
  object : String
  created : Nat
  model : String
  choices : List ChatChoice
  usage : UsageInfo
deriving DecidableEq, Repr

/-- Model of `_create_error_response` (non_stream_generator.py lines
107-124): it is meant to return an error-content response with finish
reason `stop`, but its `Message(role=..., content=...)` call instantiates
`Message`, which schemas.py line 108 defines as the `typing.Union` alias
over the concrete message classes — instantiating a Union raises
`TypeError`, so the method always raises before building the response. -/
def createErrorResponse (modelName responseId errorMessage : String)
    (now : Nat) : Except ExtractError ChatCompletionResponse :=
  .error .typeErrorUnion

/-- The `ChatCompletionResponse(...)` constructor call at the end of
`_process_response`: `content` becomes `None` when empty, ids/created/usage
fall back to the generated defaults. -/
def assembleResponse (modelName responseId : String) (now : Nat) (r : RawResponse)
    (content : String) (toolCalls : Option (List ToolCall)) (finish : String) :
    ChatCompletionResponse :=
  { id := r.id.getD responseId
    object := "chat.completion"
    created := r.created.getD now
    model := modelName
    choices := [{ index := 0
                  message := { content := if content ≠ "" then some content else none
                               toolCalls := toolCalls }
                  finishReason := some finish }]
    usage := { promptTokens := r.promptTokens.getD 0
               completionTokens := r.completionTokens.getD 0
               totalTokens := r.totalTokens.getD 0 } }

/-- Model of `NonStreamResponseGenerator._process_response`.  An invalid
response (missing/empty `choices`) goes to `_create_error_response`, whose
exception propagates; tool-call extraction runs only when the request
carries a non-empty tools list and the content is non-empty; an exception
escaping the extractor propagates out of `_process_response` (returned
here as `.error`). -/
def processResponse (modelName : String) (resp : Option RawResponse)
    (tools : Option (List ToolDef)) (responseId : String) (now : Nat) :
    Except ExtractError ChatCompletionResponse :=
  match resp with
  | none => createErrorResponse modelName responseId "Invalid response from model" now
  | some r =>
    match r.choices with
    | [] => createErrorResponse modelName responseId "Invalid response from model" now
    | choice :: _ =>
      let finish0 := choice.finishReason.getD "stop"
      let content0 := choice.content.getD ""
      if shouldUseTools tools && content0 != "" then
        match extractToolCalls content0 now with
        | .error e => .error e
        | .ok (cleaned, extracted) =>
          if !extracted.isEmpty then
            .ok (assembleResponse modelName responseId now r
                  (if cleaned ≠ "" then String.mk (pyStrip cleaned.data) else "")
                  (some extracted) "tool_calls")
          else .ok (assembleResponse modelName responseId now r
                  content0 choice.toolCalls finish0)
      else .ok (assembleResponse modelName responseId now r
                  content0 choice.toolCalls finish0)

/-- Abstract rendering of Python's `str(e)` for the exceptions that can
escape `_process_response` or `_create_error_response`. -/
def ExtractError.text : ExtractError → String
  | .attributeError => "object has no attribute get"
  | .validationError => "validation error for FunctionCall"
  | .typeErrorUnion => "Cannot instantiate typing.Union"

/-- Model of `NonStreamResponseGenerator.generate` after the backend
returned `resp`: `_process_response`, with the broad `except` handing any
escaped exception to `_create_error_response(response_id, str(e))` — which
itself raises `TypeError` (the `Message` Union slip), so every failure
path propagates an exception out of `generate` instead of producing a
response. -/
def generateNonStream (modelName : String) (resp : Option RawResponse)
    (tools : Option (List ToolDef)) (responseId : String) (now : Nat) :
    Except ExtractError ChatCompletionResponse :=
  match processResponse modelName resp tools responseId now with
  | .ok r => .ok r
  | .error e => createErrorResponse modelName responseId e.text now

/-! ## ModelPool

`app/services/model_pool.py`.  Contexts are identified by their index.
`ready` is the set of context ids whose backend model is loaded
(`ModelContext.is_ready`, model_context.py line 131); nothing in
`acquire`/`release` unloads a model, so the set is part of the state and
left unchanged by both. -/

structure PoolState where
  poolSize : Nat
  contexts : List Nat
  available : List Nat
  inUse : Finset Nat
  activeRequests : Nat
  maxActive : Nat
  isInit : Bool
  initFailed : Bool
  ready : Finset Nat
deriving DecidableEq

inductive PoolError where
  | serviceUnavailable (msg : String)
  | poolExhausted (msg : String)
deriving DecidableEq, Repr

/-- Model of `ModelPool.__init__(pool_size)`. -/
def freshPool (poolSize : Nat) : PoolState :=
  { poolSize := poolSize
    contexts := []
    available := []
    inUse := ∅
    activeRequests := 0
    maxActive := poolSize
    isInit := false
    initFailed := false
    ready := ∅ }

/-- Python `TypeError` on a call with a missing required positional
argument: `ModelContext.__init__` (model_context.py line 15) requires
`context_id`. -/
def mkModelContextCall (contextId : Option Nat) : Except String Nat :=
  match contextId with
  | some i => .ok i
  | none => .error "TypeError: __init__() missing 1 required positional argument context_id"

/-- Model of `ModelPool.initialize()` as written: the construction loop executes
`ctx = ModelContext()` (model_pool.py line 36) with no argument, so with
`pool_size > 0` the first iteration raises `TypeError` — caught by the outer
`except`, which sets `_initialization_failed` and re-raises
`ServiceUnavailableError`; with `pool_size = 0` the loop is empty, zero
contexts initialize, and the zero-success branch raises.  Returns the
resulting pool state and the raised error. -/
def poolInitRun (s : PoolState) : PoolState × PoolError :=
  let cleared := { s with contexts := [], available := [] }
  if 0 < s.poolSize then
    match mkModelContextCall none with
    | .error e =>
      ({ cleared with initFailed := true },
        .serviceUnavailable ("Service initialization failed: " ++ e))
    | .ok _ => (cleared, .serviceUnavailable "")
  else
    ({ cleared with initFailed := true },
      .serviceUnavailable "Service initialization failed: No models could be initialized")

/-- The pool state after a *successful* `initialize()` (the success path,
model_pool.py lines 41–58): context `i` initialized iff `ctxOk i`; the
successfully initialized contexts are appended to `available` in index
order and `_max_active_requests` becomes their number.  (As written the
code can never reach this state — see the `ModelContext()` TypeError above —
but these lines define what an initialized pool is; the spec's initialize
contract is settled separately.) -/
def initPoolState (poolSize : Nat) (ctxOk : Nat → Bool) : PoolState :=
  let succ := (List.range poolSize).filter ctxOk
  { poolSize := poolSize
    contexts := List.range poolSize
    available := succ
    inUse := ∅
    activeRequests := 0
    maxActive := succ.length
    isInit := true
    initFailed := false
    ready := succ.toFinset }

/-- The message of the concurrency-limit `PoolExhaustedError`
(model_pool.py lines 73–77). -/
def exhaustedMsg (s : PoolState) : String :=
  "Service is busy. Maximum concurrent requests: " ++ toString s.maxActive ++
  ", Current active requests: " ++ toString s.activeRequests ++
  ", Total instances: " ++ toString s.contexts.length

/-- Model of `ModelPool.acquire()`: not-ready check, concurrency-limit check, then
`pop()` of the *last* available context, moved into `in_use` with the
active counter incremented. -/
def acquire (s : PoolState) : Except PoolError (Nat × PoolState) :=
  if !s.isInit || s.initFailed then
    .error (.serviceUnavailable "Service is not ready")
  else if s.maxActive ≤ s.activeRequests then
    .error (.poolExhausted (exhaustedMsg s))
  else
    match s.available.getLast? with
    | none => .error (.poolExhausted "No available models in pool")
    | some c =>
      .ok (c, { s with available := s.available.dropLast
                       inUse := insert c s.inUse
                       activeRequests := s.activeRequests + 1 })

/-- Model of `ModelPool.release(context)`: a no-op unless the context is in
`in_use`; then it is removed, the counter decremented (floored at 0 —
`Nat` subtraction), and appended back to `available` only when still
ready. -/
def release (s : PoolState) (c : Nat) : PoolState :=
  if c ∈ s.inUse then
    let s1 := { s with inUse := s.inUse.erase c
                       activeRequests := s.activeRequests - 1 }
    if c ∈ s.ready then { s1 with available := s1.available ++ [c] } else s1
  else s

/-- Model of `ModelPool.is_ready`. -/
def poolIsReady (s : PoolState) : Bool :=
  s.isInit && !s.initFailed && !s.available.isEmpty

/-- Runs `k` successive `acquire()` calls, stopping at the first failure. -/
def acquireSeq : Nat → PoolState → Except PoolError PoolState
  | 0, s => .ok s
  | k + 1, s =>
    match acquire s with
    | .ok p => acquireSeq k p.2
    | .error e => .error e

/-- Pool states reachable from a freshly (and successfully) initialized
pool by any sequence of `acquire` and `release` calls (failed acquires do
not change the state). -/
inductive Reachable (n : Nat) (ctxOk : Nat → Bool) : PoolState → Prop where
  | init :
      0 < ((List.range n).filter ctxOk).length →
      Reachable n ctxOk (initPoolState n ctxOk)
  | acq {s : PoolState} {c : Nat} {s' : PoolState} :
      Reachable n ctxOk s → acquire s = .ok (c, s') → Reachable n ctxOk s'
  | rel {s : PoolState} (c : Nat) :
      Reachable n ctxOk s → Reachable n ctxOk (release s c)

/-- Structural pool invariant: `available` duplicate-free and disjoint from
`in_use`, every pooled context ready, the active counter equal to the
in-use cardinality, and the two partitions summing to the effective
capacity. -/
def PoolInv (s : PoolState) : Prop :=
  s.available.Nodup ∧
  (∀ c ∈ s.available, c ∉ s.inUse) ∧
  (∀ c ∈ s.available, c ∈ s.ready) ∧
  (∀ c ∈ s.inUse, c ∈ s.ready) ∧
  s.activeRequests = s.inUse.card ∧
  s.available.length + s.inUse.card = s.maxActive

/-! ## Session bookkeeping of the two service layers -/

/-- Session state of `LlamaHandler` (llama_handler.py): the last session id
the model served. -/
structure HandlerState where
  currentSessionId : Option String
deriving DecidableEq, Repr

/-- Model of `LlamaHandler._ensure_clean_context(session_id)`: `reset()` runs iff
the stored session id differs; returns how many `reset()` calls were made
together with the new state. -/
def ensureCleanContext (sessionId : String) (st : HandlerState) :
    Nat × HandlerState :=
  if st.currentSessionId = some sessionId then (0, st)
  else (1, { currentSessionId := some sessionId })

/-- Resets performed between two consecutive successful generations on the
`LlamaHandler` path: a generation for `sid` calls `_ensure_clean_context`
(via `_create_completion`) before the model call and resets nowhere else on
the success path, so the resets between generation 1 (session `sid1`) and
generation 2 (session `sid2`) are exactly those of generation 2's ensure
step. -/
def handlerResetsBetween (st : HandlerState) (sid1 sid2 : String) : Nat :=
  (ensureCleanContext sid2 (ensureCleanContext sid1 st).2).1

/-- State of `LlamaService` (models_service.py): whether the model is loaded — the
only thing `reset_cache()` checks. -/
structure ServiceState where
  modelLoaded : Bool
deriving DecidableEq, Repr

/-- Model of `LlamaService.reset_cache()`: resets the model iff it is loaded. -/
def serviceResetCache (st : ServiceState) : Nat :=
  if st.modelLoaded then 1 else 0

/-- Resets performed between two consecutive successful generations on the
`LlamaService` path: `generate_response_non_stream`'s `finally` block calls
`reset_cache()` unconditionally after every generation, and nothing resets
before the model call, so the resets between the two generations are
exactly generation 1's `finally` reset — independent of both session ids. -/
def serviceResetsBetween (st : ServiceState) (sid1 sid2 : String) : Nat :=
  serviceResetCache st

/-! # Theorems -/

/-! ## Pool lemmas -/

theorem acquire_ok_elim {s : PoolState} {c : Nat} {s' : PoolState}
    (ha : acquire s = .ok (c, s')) :
    s.isInit = true ∧ s.initFailed = false ∧
    s.activeRequests < s.maxActive ∧
    ∃ ys, s.available = ys ++ [c] ∧
      s' = { s with available := ys
                    inUse := insert c s.inUse
                    activeRequests := s.activeRequests + 1 } := by
  unfold acquire at ha
  split at ha
  · exact absurd ha (by simp)
  next hcond =>
    split at ha
    · exact absurd ha (by simp)
    next hlt =>
      split at ha
      · exact absurd ha (by simp)
      next c0 hL =>
        simp only [Except.ok.injEq, Prod.mk.injEq] at ha
        obtain ⟨hc, hs'⟩ := ha
        subst hc
        have hcond' : s.isInit = true ∧ s.initFailed = false := by
          revert hcond
          cases s.isInit <;> cases s.initFailed <;> simp
        obtain ⟨ys, hys⟩ := List.getLast?_eq_some_iff.1 hL
        refine ⟨hcond'.1, hcond'.2, Nat.lt_of_not_le hlt, ys, hys, ?_⟩
        rw [← hs']
        have hdrop : s.available.dropLast = ys := by
          rw [hys]; exact List.dropLast_concat
        rw [hdrop]

theorem poolInv_init (n : Nat) (ctxOk : Nat → Bool) :
    PoolInv (initPoolState n ctxOk) := by
  refine ⟨List.Nodup.filter _ (List.nodup_range n), ?_, ?_, ?_, rfl, ?_⟩
  · intro c _ hc
    exact absurd hc (Finset.not_mem_empty c)
  · intro c hc
    exact List.mem_toFinset.mpr hc
  · intro c hc
    exact absurd hc (Finset.not_mem_empty c)
  · simp [initPoolState]

theorem poolInv_acquire {s : PoolState} {c : Nat} {s' : PoolState}
    (hinv : PoolInv s) (ha : acquire s = .ok (c, s')) : PoolInv s' := by
  obtain ⟨hnd, hdisj, havr, hinr, hact, hsum⟩ := hinv
  obtain ⟨_, _, _, ys, hys, hs'⟩ := acquire_ok_elim ha
  subst hs'
  have hmemc : c ∈ s.available := by rw [hys]; simp
  have hcnotin : c ∉ s.inUse := hdisj c hmemc
  have hndc : ys.Nodup ∧ c ∉ ys := by
    have := hys ▸ hnd
    rw [List.nodup_append] at this
    exact ⟨this.1, fun hmem => this.2.2 hmem (by simp)⟩
  refine ⟨hndc.1, ?_, ?_, ?_, ?_, ?_⟩
  · intro x hx
    simp only [Finset.mem_insert, not_or]
    exact ⟨fun hxc => hndc.2 (hxc ▸ hx), hdisj x (by rw [hys]; exact List.mem_append_left _ hx)⟩
  · intro x hx
    exact havr x (by rw [hys]; exact List.mem_append_left _ hx)
  · intro x hx
    rcases Finset.mem_insert.1 hx with hxc | hxu
    · exact hxc ▸ havr c hmemc
    · exact hinr x hxu
  · simp only [Finset.card_insert_of_not_mem hcnotin]
    omega
  · simp only [Finset.card_insert_of_not_mem hcnotin]
    have : s.available.length = ys.length + 1 := by rw [hys]; simp
    omega

theorem release_eq_of_mem {s : PoolState} {c : Nat} (hin : c ∈ s.inUse)
    (hready : c ∈ s.ready) :
    release s c = { s with inUse := s.inUse.erase c
                           activeRequests := s.activeRequests - 1
                           available := s.available ++ [c] } := by
  unfold release
  rw [if_pos hin, if_pos hready]

theorem release_eq_of_not_mem {s : PoolState} {c : Nat} (hin : c ∉ s.inUse) :
    release s c = s := by
  unfold release
  rw [if_neg hin]

theorem poolInv_release {s : PoolState} (c : Nat) (hinv : PoolInv s) :
    PoolInv (release s c) := by
  obtain ⟨hnd, hdisj, havr, hinr, hact, hsum⟩ := hinv
  by_cases hin : c ∈ s.inUse
  · have hcard : 0 < s.inUse.card := Finset.card_pos.mpr ⟨c, hin⟩
    have hready : c ∈ s.ready := hinr c hin
    have hcav : c ∉ s.available := fun hmem => hdisj c hmem hin
    rw [release_eq_of_mem hin hready]
    refine ⟨?_, ?_, ?_, ?_, ?_, ?_⟩
    · show (s.available ++ [c]).Nodup
      rw [List.nodup_append]
      refine ⟨hnd, List.nodup_singleton c, ?_⟩
      intro x hmemx hxc
      exact hcav ((List.mem_singleton.1 hxc) ▸ hmemx)
    · intro x hx
      rcases List.mem_append.1 hx with hxa | hxc
      · intro hxe
        exact hdisj x hxa (Finset.mem_of_mem_erase hxe)
      · rw [List.mem_singleton.1 hxc]
        exact Finset.not_mem_erase c s.inUse
    · intro x hx
      rcases List.mem_append.1 hx with hxa | hxc
      · exact havr x hxa
      · exact (List.mem_singleton.1 hxc) ▸ hready
    · intro x hx
      exact hinr x (Finset.mem_of_mem_erase hx)
    · show s.activeRequests - 1 = (s.inUse.erase c).card
      rw [Finset.card_erase_of_mem hin]
      omega
    · show (s.available ++ [c]).length + (s.inUse.erase c).card = s.maxActive
      rw [Finset.card_erase_of_mem hin, List.length_append, List.length_singleton]
      omega
  · rw [release_eq_of_not_mem hin]
    exact ⟨hnd, hdisj, havr, hinr, hact, hsum⟩

theorem acquire_preserves_maxActive {s : PoolState} {c : Nat} {s' : PoolState}
    (ha : acquire s = .ok (c, s')) : s'.maxActive = s.maxActive := by
  obtain ⟨_, _, _, ys, _, hs'⟩ := acquire_ok_elim ha
  rw [hs']

theorem release_preserves_maxActive (s : PoolState) (c : Nat) :
    (release s c).maxActive = s.maxActive := by
  by_cases hin : c ∈ s.inUse
  · by_cases hready : c ∈ s.ready
    · rw [release_eq_of_mem hin hready]
    · unfold release
      rw [if_pos hin, if_neg hready]
  · rw [release_eq_of_not_mem hin]

theorem reachable_inv {n : Nat} {ctxOk : Nat → Bool} {s : PoolState}
    (h : Reachable n ctxOk s) :
    PoolInv s ∧ s.maxActive = ((List.range n).filter ctxOk).length := by
  induction h with
  | init hpos => exact ⟨poolInv_init n ctxOk, rfl⟩
  | acq hre ha ih =>
    exact ⟨poolInv_acquire ih.1 ha, (acquire_preserves_maxActive ha).trans ih.2⟩
  | rel c hre ih =>
    exact ⟨poolInv_release c ih.1, (release_preserves_maxActive _ c).trans ih.2⟩

/-- C1: in every pool state reachable from a freshly initialized pool by
acquire/release sequences, the available and in-use partitions sum to the
(effective) capacity, the active-request counter equals the in-use size,
and it never exceeds the capacity. -/
theorem c1_pool_invariant (n : Nat) (ctxOk : Nat → Bool) (s : PoolState)
    (h : Reachable n ctxOk s) :
    s.available.length + s.inUse.card = s.maxActive ∧
    s.activeRequests = s.inUse.card ∧
    s.activeRequests ≤ s.maxActive := by
  obtain ⟨⟨_, _, _, _, hact, hsum⟩, _⟩ := reachable_inv h
  exact ⟨hsum, hact, by omega⟩

/-- C1 witness: the invariant instantiated at the concrete reachable state
obtained by initializing a pool of 2 contexts (both succeeding) and
acquiring one of them. -/
theorem c1_pool_invariant_witness :
    ∃ s : PoolState, Reachable 2 (fun _ => true) s ∧
      s.available.length + s.inUse.card = s.maxActive ∧
      s.activeRequests = s.inUse.card ∧
      s.activeRequests ≤ s.maxActive := by
  have hinit : Reachable 2 (fun _ => true) (initPoolState 2 (fun _ => true)) :=
    Reachable.init (by decide)
  have hacq : Reachable 2 (fun _ => true)
      { poolSize := 2, contexts := [0, 1], available := [0], inUse := {1},
        activeRequests := 1, maxActive := 2, isInit := true, initFailed := false,
        ready := {0, 1} } :=
    @Reachable.acq 2 (fun _ => true) (initPoolState 2 (fun _ => true)) 1
      { poolSize := 2, contexts := [0, 1], available := [0], inUse := {1},
        activeRequests := 1, maxActive := 2, isInit := true, initFailed := false,
        ready := {0, 1} }
      hinit (by decide)
  exact ⟨_, hacq, c1_pool_invariant 2 (fun _ => true) _ hacq⟩

/-! ## Acquire admission control (C2) -/

theorem acquire_exhausted_of_limit {s : PoolState}
    (h1 : s.isInit = true) (h2 : s.initFailed = false)
    (hle : s.maxActive ≤ s.activeRequests) :
    acquire s = .error (.poolExhausted (exhaustedMsg s)) := by
  have hc1 : (!s.isInit || s.initFailed) = false := by rw [h1, h2]; rfl
  unfold acquire
  rw [hc1]
  simp only [Bool.false_eq_true, if_false]
  rw [if_pos hle]

theorem acquire_exhausted_of_empty {s : PoolState}
    (h1 : s.isInit = true) (h2 : s.initFailed = false)
    (hlt : s.activeRequests < s.maxActive) (hav : s.available = []) :
    acquire s = .error (.poolExhausted "No available models in pool") := by
  have hc1 : (!s.isInit || s.initFailed) = false := by rw [h1, h2]; rfl
  unfold acquire
  rw [hc1]
  simp only [Bool.false_eq_true, if_false]
  rw [if_neg (Nat.not_le.mpr hlt), hav]
  rfl

theorem acquire_ok_of_ready {s : PoolState}
    (h1 : s.isInit = true) (h2 : s.initFailed = false)
    (h3 : s.activeRequests < s.maxActive) {c : Nat}
    (hL : s.available.getLast? = some c) :
    acquire s = .ok (c, { s with available := s.available.dropLast
                                 inUse := insert c s.inUse
                                 activeRequests := s.activeRequests + 1 }) := by
  have hc1 : (!s.isInit || s.initFailed) = false := by rw [h1, h2]; rfl
  unfold acquire
  rw [hc1]
  simp only [Bool.false_eq_true, if_false]
  rw [if_neg (Nat.not_le.mpr h3), hL]

theorem acquireSeq_succ (k : Nat) (s : PoolState) :
    acquireSeq (k + 1) s =
      match acquire s with
      | .ok p => acquireSeq k p.2
      | .error e => .error e := rfl

theorem acquireSeq_back (k : Nat) (s : PoolState) :
    acquireSeq (k + 1) s =
      match acquireSeq k s with
      | .ok t =>
        (match acquire t with
         | .ok p => .ok p.2
         | .error e => .error e)
      | .error e => .error e := by
  induction k generalizing s with
  | zero =>
    rw [acquireSeq_succ]
    show (match acquire s with
          | .ok p => acquireSeq 0 p.2
          | .error e => .error e) =
        (match acquire s with
         | .ok p => Except.ok p.2
         | .error e => Except.error e)
    cases acquire s <;> rfl
  | succ k ih =>
    rw [acquireSeq_succ (k + 1) s, acquireSeq_succ k s]
    cases h : acquire s with
    | ok p => exact ih p.2
    | error e => rfl

theorem acquireSeq_progress (k : Nat) :
    ∀ s : PoolState, s.isInit = true → s.initFailed = false →
      s.activeRequests + s.available.length = s.maxActive →
      k ≤ s.available.length →
      ∃ s', acquireSeq k s = .ok s' ∧ s'.isInit = true ∧ s'.initFailed = false ∧
        s'.activeRequests + s'.available.length = s'.maxActive ∧
        s'.available.length = s.available.length - k ∧
        s'.activeRequests = s.activeRequests + k ∧
        s'.maxActive = s.maxActive := by
  induction k with
  | zero =>
    intro s h1 h2 h3 _
    exact ⟨s, rfl, h1, h2, h3, by omega, by omega, rfl⟩
  | succ k ih =>
    intro s h1 h2 h3 hk
    have hne : s.available ≠ [] := by
      intro h
      rw [h] at hk
      simp at hk
    obtain ⟨c, hL⟩ : ∃ c, s.available.getLast? = some c := by
      cases hLs : s.available.getLast? with
      | none => exact absurd (List.getLast?_eq_none_iff.1 hLs) hne
      | some c => exact ⟨c, rfl⟩
    have hlen1 : 1 ≤ s.available.length := by
      cases hav : s.available with
      | nil => exact absurd hav hne
      | cons a t => simp
    have hlt : s.activeRequests < s.maxActive := by omega
    have hstep := acquire_ok_of_ready h1 h2 hlt hL
    have hdl : s.available.dropLast.length = s.available.length - 1 :=
      List.length_dropLast _
    obtain ⟨s', hseq, h1', h2', h3', hlen', hact', hmax'⟩ :=
      ih { s with available := s.available.dropLast
                  inUse := insert c s.inUse
                  activeRequests := s.activeRequests + 1 }
        h1 h2 (by dsimp only; omega) (by dsimp only; omega)
    dsimp only at hlen' hact' hmax'
    refine ⟨s', ?_, h1', h2', h3', ?_, ?_, ?_⟩
    · show (match acquire s with
            | .ok p => acquireSeq k p.2
            | .error e => .error e) = .ok s'
      rw [hstep]
      exact hseq
    · simp only [hdl] at hlen'
      omega
    · omega
    · exact hmax'

/-- C2: on an initialized, non-failed pool, `acquire` fails immediately
with a `PoolExhaustedError` whenever the active-request counter has
reached the effective capacity or the available list is empty; otherwise
it atomically pops the last available context, inserts it into the in-use
set, increments the counter and returns it.  Consequently, from a freshly
initialized pool of effective capacity `N`, the first `N` acquires succeed
and the `N+1`-st fails with the pool-exhausted condition. -/
theorem c2_acquire_admission :
    (∀ s : PoolState, s.isInit = true → s.initFailed = false →
       s.maxActive ≤ s.activeRequests ∨ s.available = [] →
       ∃ m, acquire s = .error (.poolExhausted m)) ∧
    (∀ (s : PoolState) (c : Nat), s.isInit = true → s.initFailed = false →
       s.activeRequests < s.maxActive → s.available.getLast? = some c →
       acquire s = .ok (c, { s with available := s.available.dropLast
                                    inUse := insert c s.inUse
                                    activeRequests := s.activeRequests + 1 })) ∧
    (∀ (n : Nat) (ctxOk : Nat → Bool),
       0 < ((List.range n).filter ctxOk).length →
       (∃ s', acquireSeq ((List.range n).filter ctxOk).length
          (initPoolState n ctxOk) = .ok s') ∧
       (∃ m, acquireSeq (((List.range n).filter ctxOk).length + 1)
          (initPoolState n ctxOk) = .error (.poolExhausted m))) := by
  refine ⟨?_, ?_, ?_⟩
  · intro s h1 h2 hcond
    by_cases hle : s.maxActive ≤ s.activeRequests
    · exact ⟨_, acquire_exhausted_of_limit h1 h2 hle⟩
    · have hav : s.available = [] := by
        rcases hcond with h | h
        · exact absurd h hle
        · exact h
      exact ⟨_, acquire_exhausted_of_empty h1 h2 (Nat.lt_of_not_le hle) hav⟩
  · intro s c h1 h2 h3 hL
    exact acquire_ok_of_ready h1 h2 h3 hL
  · intro n ctxOk hpos
    have hinit3 : (initPoolState n ctxOk).activeRequests +
        (initPoolState n ctxOk).available.length = (initPoolState n ctxOk).maxActive := by
      simp [initPoolState]
    obtain ⟨s', hseq, h1', h2', h3', hlen', hact', hmax'⟩ :=
      acquireSeq_progress ((List.range n).filter ctxOk).length
        (initPoolState n ctxOk) rfl rfl hinit3 (by simp [initPoolState])
    refine ⟨⟨s', hseq⟩, ?_⟩
    have hfull : s'.maxActive ≤ s'.activeRequests := by
      have hlen0 : (initPoolState n ctxOk).available.length =
          ((List.range n).filter ctxOk).length := by simp [initPoolState]
      have hact0 : (initPoolState n ctxOk).activeRequests = 0 := rfl
      have hmax0 : (initPoolState n ctxOk).maxActive =
          ((List.range n).filter ctxOk).length := rfl
      omega
    refine ⟨exhaustedMsg s', ?_⟩
    rw [acquireSeq_back, hseq]
    show (match acquire s' with
          | .ok p => Except.ok p.2
          | .error e => Except.error e) = _
    rw [acquire_exhausted_of_limit h1' h2' hfull]

/-- C2 witness: a capacity-1 pool — the pool-exhausted failure on the
saturated state, the successful atomic move on the fresh state, and the
N-succeed/(N+1)-fail pattern for N = 1. -/
theorem c2_acquire_admission_witness :
    (∃ m, acquire
        { poolSize := 1, contexts := [0], available := [],
          inUse := {0}, activeRequests := 1, maxActive := 1, isInit := true,
          initFailed := false, ready := {0} } = .error (.poolExhausted m)) ∧
    (acquire (initPoolState 1 (fun _ => true)) =
      .ok (0,
        { poolSize := 1, contexts := [0], available := [], inUse := {0},
          activeRequests := 1, maxActive := 1, isInit := true,
          initFailed := false, ready := {0} })) ∧
    (∃ s', acquireSeq 1 (initPoolState 1 (fun _ => true)) = .ok s') ∧
    (∃ m, acquireSeq 2 (initPoolState 1 (fun _ => true)) = .error (.poolExhausted m)) := by
  refine ⟨c2_acquire_admission.1 _ rfl rfl (Or.inl (by decide)), ?_, ?_⟩
  · exact c2_acquire_admission.2.1 _ 0 rfl rfl (by decide) rfl
  · exact c2_acquire_admission.2.2 1 (fun _ => true) (by decide)

/-! ## Pool initialization (C5) -/

/-- C5 evidence: `ModelPool.initialize()` as written can never succeed —
for every starting pool state the run marks the pool initialization-failed,
leaves it not ready, and raises `ServiceUnavailableError`.  The cause is
`ModelContext()` at model_pool.py line 36, which omits the `context_id`
argument that `ModelContext.__init__` requires, so a `TypeError` aborts the
construction loop before any context can initialize; the documented
partial-failure tolerance (pool ready with capacity equal to the number of
successes) is unreachable. -/
theorem c5_pool_init_always_fails (s : PoolState) :
    (poolInitRun s).1.initFailed = true ∧
    poolIsReady (poolInitRun s).1 = false ∧
    ∃ m, (poolInitRun s).2 = .serviceUnavailable m := by
  unfold poolInitRun
  by_cases h : 0 < s.poolSize
  · rw [if_pos h]
    refine ⟨rfl, ?_, _, rfl⟩
    cases s.isInit <;> rfl
  · rw [if_neg h]
    refine ⟨rfl, ?_, _, rfl⟩
    cases s.isInit <;> rfl

/-! ## Three-phase tool-call streaming (C4) -/

/-- C4: for every parsed tool call, `_stream_tool_calls` emits an
initiation chunk carrying the call id, type `function`, the function name
and empty arguments, followed by one or more argument chunks whose slices
concatenate to the full JSON-encoded arguments string, all with null
finish reason except the final one, which carries `tool_calls`. -/
theorem c4_three_phase_chunks (tc : StreamToolCall) :
    ∃ (initialSlices : List (List Char)) (lastSlice : List Char),
      streamToolCalls tc =
        StreamEvent.toolInitChunk tc.id "function" tc.name "" ::
          (initialSlices.map (fun sl => StreamEvent.toolArgsChunk sl none) ++
            [StreamEvent.toolArgsChunk lastSlice (some "tool_calls")]) ∧
      initialSlices.foldr (fun a b => a ++ b) [] ++ lastSlice = tc.argumentsStr := by
  by_cases hmid : 0 < tc.argumentsStr.length / 2
  · refine ⟨[tc.argumentsStr.take (tc.argumentsStr.length / 2)],
      tc.argumentsStr.drop (tc.argumentsStr.length / 2), ?_, ?_⟩
    · unfold streamToolCalls
      dsimp only
      rw [if_pos hmid]
      rfl
    · simp [List.take_append_drop]
  · refine ⟨[], tc.argumentsStr.drop (tc.argumentsStr.length / 2), ?_, ?_⟩
    · unfold streamToolCalls
      dsimp only
      rw [if_neg hmid]
      rfl
    · have hz : tc.argumentsStr.length / 2 = 0 := by omega
      rw [hz, List.drop_zero, List.foldr_nil, List.nil_append]


/-! ## Streaming split equivalence (C3) -/

theorem hasSub_nil_left (b : List Char) : hasSub [] b = true := by
  cases b <;> rfl

theorem isPrefixOf_append_right {n l : List Char} (b : List Char)
    (h : n.isPrefixOf l = true) : n.isPrefixOf (l ++ b) = true := by
  rw [List.isPrefixOf_iff_prefix] at h
  rw [List.isPrefixOf_iff_prefix]
  exact h.trans (List.prefix_append l b)

theorem hasSub_append_right {n a : List Char} (b : List Char)
    (h : hasSub n a = true) : hasSub n (a ++ b) = true := by
  induction a with
  | nil =>
    have hn : n = [] := by
      cases n with
      | nil => rfl
      | cons c t => exact absurd h (by simp [hasSub])
    subst hn
    exact hasSub_nil_left b
  | cons c t ih =>
    rw [List.cons_append]
    show (n.isPrefixOf (c :: (t ++ b)) || hasSub n (t ++ b)) = true
    have h' : (n.isPrefixOf (c :: t) || hasSub n t) = true := h
    rw [Bool.or_eq_true] at h'
    rw [Bool.or_eq_true]
    rcases h' with h1 | h2
    · refine Or.inl ?_
      have := isPrefixOf_append_right b h1
      rwa [List.cons_append] at this
    · exact Or.inr (ih h2)

theorem stepDelta_empty (now : Nat) (st : StreamState) :
    stepDelta now st [] = (st, []) := rfl

theorem stepDelta_buffering {now : Nat} {st : StreamState} {x : List Char}
    (hne : x.isEmpty = false)
    (hcond : (!st.toolCallDetected && !hasSub openTagChars x) = false)
    (hclose : hasSub closeTagChars (st.buffer ++ x) = false) :
    stepDelta now st x = ({ buffer := st.buffer ++ x, toolCallDetected := true }, []) := by
  unfold stepDelta
  dsimp only
  rw [hne, hcond, hclose]
  rfl

theorem stepDelta_close {now : Nat} {st : StreamState} {x : List Char}
    (hne : x.isEmpty = false)
    (hcond : (!st.toolCallDetected && !hasSub openTagChars x) = false)
    (hclose : hasSub closeTagChars (st.buffer ++ x) = true) :
    stepDelta now st x =
      (initStreamState,
       match parseToolCallsFromBuffer now (st.buffer ++ x) with
       | [] => []
       | c :: _ => streamToolCalls c) := by
  unfold stepDelta
  dsimp only
  rw [hne, hcond, hclose]
  rfl

/-- C3 counterexample: the single tagged text
`<tool_call>{"name":"foo","arguments":{"a":1}}</tool_call>` fed whole
produces the synthesized tool-call chunk sequence, but split at byte
offset 5 (inside the opening marker) the assembler emits the two halves
as plain text chunks — the extraction results differ. -/
theorem c3_split_counterexample :
    streamGenerate 0
        [some [some "<tool".data],
         some [some "_call>\x7b\"name\":\"foo\",\"arguments\":\x7b\"a\":1\x7d\x7d</tool_call>".data]]
        none ≠
      streamGenerate 0
        [some [some "<tool_call>\x7b\"name\":\"foo\",\"arguments\":\x7b\"a\":1\x7d\x7d</tool_call>".data]]
        none := by
  intro h
  have h1 : (match streamGenerate 0
        [some [some "<tool".data],
         some [some "_call>\x7b\"name\":\"foo\",\"arguments\":\x7b\"a\":1\x7d\x7d</tool_call>".data]]
        none with
      | GenOutcome.completed (StreamEvent.textChunk _ :: _) => true
      | _ => false) = true := by decide
  rw [h] at h1
  exact absurd h1 (by decide)

/-- C3 (amended): splitting a text across two deltas yields exactly the
same chunk sequence as feeding it whole, provided the first delta is
empty, or contains the complete opening marker and no closing marker; a
split inside the opening marker (or, more generally, one that changes
which delta first triggers tag detection) can change the result, as the
counterexample shows. -/
theorem c3_split_equivalence (now : Nat) (a b : List Char)
    (h : a = [] ∨ (hasSub openTagChars a = true ∧ hasSub closeTagChars a = false)) :
    streamGenerate now [some [some a], some [some b]] none =
      streamGenerate now [some [some (a ++ b)]] none := by
  rcases h with ha | ⟨hopen, hclose⟩
  · subst ha
    rfl
  · have hane : a ≠ [] := by
      intro h'
      subst h'
      exact absurd hopen (by decide)
    have haeq : a.isEmpty = false := by
      cases a with
      | nil => exact absurd rfl hane
      | cons c t => rfl
    have hstep1 : stepDelta now initStreamState a =
        ({ buffer := a, toolCallDetected := true }, []) := by
      exact stepDelta_buffering haeq (by rw [hopen]; rfl) (by exact hclose)
    cases b with
    | nil =>
      have habeq : a ++ [] = a := List.append_nil a
      have hstepw : stepDelta now initStreamState (a ++ []) =
          ({ buffer := a, toolCallDetected := true }, []) := by
        rw [habeq]
        exact hstep1
      show GenOutcome.completed
          ((stepDelta now initStreamState a).2 ++
            ((stepDelta now (stepDelta now initStreamState a).1 []).2 ++ []) ++
            (if !(stepDelta now (stepDelta now initStreamState a).1 []).1.buffer.isEmpty &&
                !(stepDelta now (stepDelta now initStreamState a).1 []).1.toolCallDetected then
              [StreamEvent.textChunk (stepDelta now (stepDelta now initStreamState a).1 []).1.buffer]
            else []) ++ [StreamEvent.doneMarker]) =
        GenOutcome.completed
          ((stepDelta now initStreamState (a ++ [])).2 ++ [] ++
            (if !(stepDelta now initStreamState (a ++ [])).1.buffer.isEmpty &&
                !(stepDelta now initStreamState (a ++ [])).1.toolCallDetected then
              [StreamEvent.textChunk (stepDelta now initStreamState (a ++ [])).1.buffer]
            else []) ++ [StreamEvent.doneMarker])
      rw [hstep1, hstepw]
      simp [stepDelta_empty]
    | cons bh bt =>
      have hbeq : (bh :: bt).isEmpty = false := rfl
      have hcond2 : (!(StreamState.toolCallDetected
          { buffer := a, toolCallDetected := true }) &&
            !hasSub openTagChars (bh :: bt)) = false := rfl
      have hcondw : (!initStreamState.toolCallDetected &&
          !hasSub openTagChars (a ++ bh :: bt)) = false := by
        rw [hasSub_append_right (bh :: bt) hopen]
        rfl
      have habne : (a ++ bh :: bt).isEmpty = false := by
        cases a with
        | nil => exact absurd rfl hane
        | cons c t => rfl
      show GenOutcome.completed
          ((stepDelta now initStreamState a).2 ++
            ((stepDelta now (stepDelta now initStreamState a).1 (bh :: bt)).2 ++ []) ++
            (if !(stepDelta now (stepDelta now initStreamState a).1 (bh :: bt)).1.buffer.isEmpty &&
                !(stepDelta now (stepDelta now initStreamState a).1 (bh :: bt)).1.toolCallDetected then
              [StreamEvent.textChunk
                (stepDelta now (stepDelta now initStreamState a).1 (bh :: bt)).1.buffer]
            else []) ++ [StreamEvent.doneMarker]) =
        GenOutcome.completed
          ((stepDelta now initStreamState (a ++ bh :: bt)).2 ++ [] ++
            (if !(stepDelta now initStreamState (a ++ bh :: bt)).1.buffer.isEmpty &&
                !(stepDelta now initStreamState (a ++ bh :: bt)).1.toolCallDetected then
              [StreamEvent.textChunk (stepDelta now initStreamState (a ++ bh :: bt)).1.buffer]
            else []) ++ [StreamEvent.doneMarker])
      rw [hstep1]
      by_cases hcl : hasSub closeTagChars (a ++ bh :: bt) = true
      · have hs2 : stepDelta now { buffer := a, toolCallDetected := true } (bh :: bt) =
            (initStreamState,
             match parseToolCallsFromBuffer now (a ++ bh :: bt) with
             | [] => []
             | c :: _ => streamToolCalls c) :=
          stepDelta_close hbeq hcond2 hcl
        have hsw : stepDelta now initStreamState (a ++ bh :: bt) =
            (initStreamState,
             match parseToolCallsFromBuffer now (a ++ bh :: bt) with
             | [] => []
             | c :: _ => streamToolCalls c) := by
          exact stepDelta_close habne hcondw (by exact hcl)
        rw [hs2, hsw]
        simp
      · have hclf : hasSub closeTagChars (a ++ bh :: bt) = false :=
          Bool.not_eq_true _ ▸ Bool.of_not_eq_true hcl
        have hs2 : stepDelta now { buffer := a, toolCallDetected := true } (bh :: bt) =
            ({ buffer := a ++ bh :: bt, toolCallDetected := true }, []) :=
          stepDelta_buffering hbeq hcond2 hclf
        have hsw : stepDelta now initStreamState (a ++ bh :: bt) =
            ({ buffer := a ++ bh :: bt, toolCallDetected := true }, []) := by
          exact stepDelta_buffering habne hcondw (by exact hclf)
        rw [hs2, hsw]
        simp

/-- C3 amended-claim witness: the equivalence applied to the concrete
split right after the opening marker. -/
theorem c3_split_equivalence_witness :
    streamGenerate 0
        [some [some "<tool_call>".data],
         some [some "\x7b\"name\":\"foo\",\"arguments\":\x7b\"a\":1\x7d\x7d</tool_call>".data]] none =
      streamGenerate 0
        [some [some ("<tool_call>".data ++
          "\x7b\"name\":\"foo\",\"arguments\":\x7b\"a\":1\x7d\x7d</tool_call>".data)]] none :=
  c3_split_equivalence 0 "<tool_call>".data
    "\x7b\"name\":\"foo\",\"arguments\":\x7b\"a\":1\x7d\x7d</tool_call>".data
    (Or.inr (by constructor <;> decide))



/-! ## Extractor round trip (C7) -/

/-- C7: extracting from
`<tool_call>{"name":"foo","arguments":{"a":1}}</tool_call>` yields exactly
one call whose function name is `foo` and whose JSON-encoded arguments
string parses back to `{"a": 1}`; the remaining visible text is empty
after trimming. -/
theorem c7_round_trip :
    ∃ (cleaned : String) (call : ToolCall),
      extractToolCalls "<tool_call>\x7b\"name\":\"foo\",\"arguments\":\x7b\"a\":1\x7d\x7d</tool_call>" 0 =
        .ok (cleaned, [call]) ∧
      call.function.name = "foo" ∧
      jsonLoads call.function.arguments = some (Json.obj [("a", Json.num 1)]) ∧
      String.mk (pyStrip cleaned.data) = "" := by
  refine ⟨"",
    { id := "call_0_0", type := "function",
      function := { name := "foo", arguments := "\x7b\"a\": 1\x7d" } },
    ?_, rfl, ?_, rfl⟩
  · rfl
  · rfl

/-! ## Stream termination and error path (C8) -/

/-- C8 evidence: on a backend exception mid-stream the `except` handler of
`StreamResponseGenerator.generate` calls the undefined
`_create_error_chunk` method, so the generator raises `AttributeError`
after the events already yielded: no error chunk is emitted and the
end-of-stream marker `data: [DONE]` never follows — contradicting the
documented one-error-chunk-then-stop behavior. -/
theorem c8_error_path_raises (now : Nat) (chunks : List ChunkInput) (msg : String) :
    ∃ evts, streamGenerate now chunks (some msg) = .raised evts missingErrorChunkAttr := by
  unfold streamGenerate
  cases h : generateLoop now initStreamState chunks with
  | mk evts rest =>
    cases rest with
    | mk stFin err =>
      cases err with
      | none => exact ⟨evts, rfl⟩
      | some e => exact ⟨evts, rfl⟩

/-! ## Session resets between generations (C9) -/

/-- C9 counterexample: on the `LlamaService` path
(models_service.py, `generate_response_non_stream`), two consecutive
generations with the *same* session id still have one `reset()` between
them — the `finally` block calls `reset_cache()` unconditionally — where
the claim requires zero. -/
theorem c9_same_session_counterexample :
    serviceResetsBetween { modelLoaded := true } "sess" "sess" ≠ 0 := by
  decide

/-- C9 (amended): on the `LlamaHandler` path, a context serving two
consecutive generations has `reset()` invoked exactly once between them
when the session ids differ and zero times when they are equal; on the
`LlamaService` path, exactly one reset occurs between any two consecutive
generations regardless of the session ids (the `finally` block resets
unconditionally). -/
theorem c9_resets_between_generations :
    (∀ (st : HandlerState) (sid1 sid2 : String),
       handlerResetsBetween st sid1 sid2 = if sid1 = sid2 then 0 else 1) ∧
    (∀ (st : ServiceState) (sid1 sid2 : String), st.modelLoaded = true →
       serviceResetsBetween st sid1 sid2 = 1) := by
  constructor
  · intro st s1 s2
    have hcur : ((ensureCleanContext s1 st).2).currentSessionId = some s1 := by
      unfold ensureCleanContext
      split
      next h => exact h
      next => rfl
    show (if ((ensureCleanContext s1 st).2).currentSessionId = some s2 then
            (0, (ensureCleanContext s1 st).2)
          else (1, ({ currentSessionId := some s2 } : HandlerState))).1 =
        if s1 = s2 then 0 else 1
    rw [hcur]
    by_cases h : s1 = s2
    · rw [if_pos (congrArg some h), if_pos h]
    · rw [if_neg (fun hh => h (Option.some.inj hh)), if_neg h]
  · intro st s1 s2 hm
    show (if st.modelLoaded then 1 else 0) = 1
    rw [hm]
    rfl

/-- C9 witness: the amended reset counts at concrete session ids. -/
theorem c9_resets_witness :
    handlerResetsBetween { currentSessionId := none } "s1" "s2" = 1 ∧
    handlerResetsBetween { currentSessionId := none } "s1" "s1" = 0 ∧
    serviceResetsBetween { modelLoaded := true } "s1" "s1" = 1 := by
  refine ⟨?_, ?_, ?_⟩
  · rw [c9_resets_between_generations.1]
    decide
  · rw [c9_resets_between_generations.1]
    decide
  · exact c9_resets_between_generations.2 { modelLoaded := true } "s1" "s1" rfl



/-! ## Non-stream assembly (C6, C10) -/

theorem processResponse_cons (modelName responseId : String) (now : Nat)
    (r : RawResponse) (tools : Option (List ToolDef)) (choice : RawChoice)
    (rest : List RawChoice) (hch : r.choices = choice :: rest) :
    processResponse modelName (some r) tools responseId now =
      (if shouldUseTools tools && (choice.content.getD "" != "") then
        match extractToolCalls (choice.content.getD "") now with
        | .error e => .error e
        | .ok (cleaned, extracted) =>
          if !extracted.isEmpty then
            .ok (assembleResponse modelName responseId now r
                  (if cleaned ≠ "" then String.mk (pyStrip cleaned.data) else "")
                  (some extracted) "tool_calls")
          else .ok (assembleResponse modelName responseId now r
                  (choice.content.getD "") choice.toolCalls
                  (choice.finishReason.getD "stop"))
      else .ok (assembleResponse modelName responseId now r
                  (choice.content.getD "") choice.toolCalls
                  (choice.finishReason.getD "stop"))) := by
  unfold processResponse
  dsimp only
  rw [hch]

/-- C6 evidence: for the completion `<tool_call>123</tool_call>` with a
non-empty tools list and backend finish reason `length`, the extractor
raises (`123` is not a JSON object, so `tool_data.get` raises
`AttributeError`, which `except (JSONDecodeError, KeyError)` does not
catch), and `generate`'s fallback `_create_error_response` itself raises
`TypeError` (it instantiates the `typing.Union` alias `Message`), so
`generate` propagates an exception and produces no response — neither the
claimed raw-text passthrough with the backend's finish reason nor any
other response. -/
theorem c6_error_path_crashes :
    extractToolCalls "<tool_call>123</tool_call>" 7 = .error .attributeError ∧
    generateNonStream "m"
        (some { id := none, created := none,
                choices := [{ finishReason := some "length",
                              content := some "<tool_call>123</tool_call>",
                              toolCalls := none }],
                promptTokens := none, completionTokens := none,
                totalTokens := none })
        (some [{ name := "f" }]) "rid" 7 = .error .typeErrorUnion := by
  exact ⟨by decide, by decide⟩


/-- C10: the non-stream assembler runs tool-call extraction only when the
request supplies a non-empty tools list and the backend returned non-empty
content: with tools absent or empty the raw text (tags included) is passed
through verbatim with the backend's finish reason (default `stop`), and
likewise with empty content no extraction runs. -/
theorem c10_tools_gating (modelName responseId : String) (now : Nat)
    (r : RawResponse) (tools : Option (List ToolDef)) (choice : RawChoice)
    (rest : List RawChoice) (hch : r.choices = choice :: rest) :
    (tools = none ∨ tools = some [] →
      generateNonStream modelName (some r) tools responseId now =
        .ok (assembleResponse modelName responseId now r (choice.content.getD "")
          choice.toolCalls (choice.finishReason.getD "stop"))) ∧
    (choice.content.getD "" = "" →
      generateNonStream modelName (some r) tools responseId now =
        .ok (assembleResponse modelName responseId now r (choice.content.getD "")
          choice.toolCalls (choice.finishReason.getD "stop"))) := by
  have hbase := processResponse_cons modelName responseId now r tools choice rest hch
  constructor
  · intro htools
    have hsut : shouldUseTools tools = false := by
      rcases htools with h | h <;> rw [h] <;> rfl
    have hcond : (shouldUseTools tools && (choice.content.getD "" != "")) = false := by
      rw [hsut]
      rfl
    unfold generateNonStream
    rw [hbase, hcond]
    rfl
  · intro hce
    have hcond : (shouldUseTools tools && (choice.content.getD "" != "")) = false := by
      rw [hce]
      simp
    unfold generateNonStream
    rw [hbase, hcond]
    rfl

/-- C10 witness: a completion full of well-formed tags, tools absent — the
tags are not extracted and the raw text is returned with the backend's
finish reason. -/
theorem c10_tools_gating_witness :
    generateNonStream "m"
        (some { id := none, created := none,
                choices := [{ finishReason := some "length",
                              content := some "<tool_call>\x7b\"name\":\"g\",\"arguments\":\x7b\"x\":2\x7d\x7d</tool_call>",
                              toolCalls := none }],
                promptTokens := none, completionTokens := none,
                totalTokens := none })
        none "rid" 3 =
      .ok (assembleResponse "m" "rid" 3
        { id := none, created := none,
          choices := [{ finishReason := some "length",
                        content := some "<tool_call>\x7b\"name\":\"g\",\"arguments\":\x7b\"x\":2\x7d\x7d</tool_call>",
                        toolCalls := none }],
          promptTokens := none, completionTokens := none, totalTokens := none }
        "<tool_call>\x7b\"name\":\"g\",\"arguments\":\x7b\"x\":2\x7d\x7d</tool_call>" none "length") :=
  (c10_tools_gating "m" "rid" 3
    { id := none, created := none,
      choices := [{ finishReason := some "length",
                    content := some "<tool_call>\x7b\"name\":\"g\",\"arguments\":\x7b\"x\":2\x7d\x7d</tool_call>",
                    toolCalls := none }],
      promptTokens := none, completionTokens := none, totalTokens := none }
    none
    { finishReason := some "length",
      content := some "<tool_call>\x7b\"name\":\"g\",\"arguments\":\x7b\"x\":2\x7d\x7d</tool_call>",
      toolCalls := none }
    [] rfl).1 (Or.inl rfl)


end LlmSvc
